import Mathlib

/-!
Verification development for the Polymarket paired-order scripts.

The embedding models the TypeScript variant of the pair-order script
(the most featured of the three near-identical variants): the pricing
helpers, the pre-trade checks, the per-window monitoring loop with its
single-fill mitigation policies, the closing cancel sweep, and the
repeat-mode window scheduling.  Exchange interactions (order reads,
order-book reads, submissions, cancels) are supplied by an explicit
environment, one record per loop iteration, so a window run is a pure
fold over that environment.  JavaScript numbers are modelled by exact
rationals; the explicit numeric constants of the source (the 1e-9
epsilon snap, the 8-decimal re-round, the 1e-9 fill epsilon) are kept
as exact rationals.
-/

namespace PairOrder

/-- The 1e-9 epsilon used both by the price snap and the fill comparisons. -/
def eps : ℚ := 1 / 1000000000

/-- JavaScript Number(x.toFixed(8)): round to 8 decimal places, ties away
from zero toward the larger value (prices here are nonnegative). -/
def round8 (x : ℚ) : ℚ := (⌊x * 100000000 + 1 / 2⌋ : ℚ) / 100000000

/-- roundDownToTick from the source: guard on a non-positive tick, then
floor(x / t + 1e-9) * t, re-rounded to 8 decimals.  A non-finite tick in
the source also takes the guard branch; the rational model only has
finite values, so the guard is the t ≤ 0 case. -/
def roundDownToTick (x t : ℚ) : ℚ :=
  if t ≤ 0 then x
  else round8 ((⌊x / t + eps⌋ : ℚ) * t)

/-- The pair edge 1 - 2*price from the pre-trade circuit breaker. -/
def pairEdge (price : ℚ) : ℚ := 1 - 2 * price

/-- One level of an order book; a price or size field is none when the
JavaScript Number conversion would not be finite. -/
structure BookLevel where
  price : Option ℚ
  size : Option ℚ
deriving DecidableEq

/-- An order book summary: lists of bid and ask levels, best first. -/
structure Book where
  bids : List BookLevel
  asks : List BookLevel
deriving DecidableEq

/-- Top of book as produced by parseOrderBookTop; none models the null
of an empty side (and a non-finite parse, which every consumer treats
the same way: not weird, and unavailable for hedging). -/
structure BookTop where
  bestBid : Option ℚ
  bestAsk : Option ℚ
  bidSize : Option ℚ
  askSize : Option ℚ
deriving DecidableEq

/-- parseOrderBookTop from the source: first level of each side, null
when the side is empty. -/
def parseOrderBookTop (ob : Book) : BookTop :=
  { bestBid := match ob.bids with | [] => none | l :: _ => l.price
    bestAsk := match ob.asks with | [] => none | l :: _ => l.price
    bidSize := match ob.bids with | [] => none | l :: _ => l.size
    askSize := match ob.asks with | [] => none | l :: _ => l.size }

/-- isWeird from the pre-trade quote sanity check: a present quote at or
outside the open interval (0, 1).  null is not weird. -/
def isWeird (x : Option ℚ) : Bool :=
  match x with
  | none => false
  | some v => decide (v ≤ 0) || decide (1 ≤ v)

/-- The quote sanity check fires (UnsafeQuote) when weird quotes are not
allowed and any of the four top-of-book quotes is weird. -/
def quoteSanityFails (allowWeirdQuotes : Bool) (upTop downTop : BookTop) : Bool :=
  !allowWeirdQuotes &&
    (isWeird upTop.bestAsk || isWeird upTop.bestBid ||
      isWeird downTop.bestAsk || isWeird downTop.bestBid)

/-- The view of an order returned by getOrder; a field is none when the
JavaScript Number conversion of the reported string is not finite. -/
structure OrderView where
  sizeMatched : Option ℚ
  originalSize : Option ℚ
deriving DecidableEq

/-- parseMatchedShares: 0 for a failed read (null order) or a
non-finite size_matched. -/
def parseMatchedShares (o : Option OrderView) : ℚ :=
  match o with
  | none => 0
  | some v => v.sizeMatched.getD 0

/-- parseOriginalShares: 0 for a failed read (null order) or a
non-finite original_size. -/
def parseOriginalShares (o : Option OrderView) : ℚ :=
  match o with
  | none => 0
  | some v => v.originalSize.getD 0

/-- The three single-fill mitigation policies. -/
inductive SingleFillAction
  | wait
  | cancel
  | hedge
deriving DecidableEq

/-- The per-run configuration relevant to one window. -/
structure Config where
  price : ℚ
  minEdge : ℚ
  minHedgeEdge : ℚ
  graceSec : ℚ
  size : ℚ
  policy : SingleFillAction
  upToken : String
  downToken : String
  upTick : ℚ
  downTick : ℚ
  allowWeirdQuotes : Bool
deriving DecidableEq

/-- The environment of one monitoring-loop iteration: the wall-clock
time at the top of the iteration, whether the realtime-feed gate skips
the iteration (USE_RTDS set and no event arrived), the two getOrder
results (none models safeGetOrder returning null after a thrown read),
the order book returned for the opposite leg if the hedge branch reads
it, the hedge submission result (none models a thrown submission), and
the result of a mitigation cancel. -/
structure StepInput where
  time : ℤ
  rtdsSkip : Bool
  upRead : Option OrderView
  downRead : Option OrderView
  otherBook : Book
  hedgeResp : Option String
  cancelOk : Bool
deriving DecidableEq

def upMatchedOf (inp : StepInput) : ℚ := parseMatchedShares inp.upRead

def downMatchedOf (inp : StepInput) : ℚ := parseMatchedShares inp.downRead

/-- parseOriginalShares(upOrder) || size: the JavaScript or-fallback
replaces a zero (falsy) original size with the configured size. -/
def upOrigOf (cfg : Config) (inp : StepInput) : ℚ :=
  let s := parseOriginalShares inp.upRead
  if s = 0 then cfg.size else s

def downOrigOf (cfg : Config) (inp : StepInput) : ℚ :=
  let s := parseOriginalShares inp.downRead
  if s = 0 then cfg.size else s

/-- upMatched + eps >= upOrig. -/
def upFullOf (cfg : Config) (inp : StepInput) : Bool :=
  decide (upOrigOf cfg inp ≤ upMatchedOf inp + eps)

def downFullOf (cfg : Config) (inp : StepInput) : Bool :=
  decide (downOrigOf cfg inp ≤ downMatchedOf inp + eps)

def bothFullOf (cfg : Config) (inp : StepInput) : Bool :=
  upFullOf cfg inp && downFullOf cfg inp

def upSomeOf (inp : StepInput) : Bool := decide (eps < upMatchedOf inp)

def downSomeOf (inp : StepInput) : Bool := decide (eps < downMatchedOf inp)

def oneSomeOf (inp : StepInput) : Bool :=
  (upSomeOf inp && !downSomeOf inp) || (!upSomeOf inp && downSomeOf inp)

/-- Observable exchange interactions of one window after placement. -/
inductive Ev
  | mitWait
  | mitCancel (orderId : String) (ok : Bool)
  | hedgeSkipNoAsk
  | hedgeSkipEdge
  | hedgeSubmit (tokenId : String) (price : ℚ) (size : ℚ) (postOnly : Bool)
      (result : Option String)
  | sweepCancel (orderId : String) (ok : Bool)
deriving DecidableEq

/-- The mitigation block that runs once the grace period has elapsed:
wait logs an acknowledgment, cancel best-effort-cancels the unfilled
leg, hedge reads the opposite book and either skips (no best ask, or
best ask above 1 - price - minHedgeEdge) or submits one non-post-only
buy of the matched-share difference at the quantized maximum price. -/
def mitigationEvents (cfg : Config) (inp : StepInput) (upId downId : String) : List Ev :=
  let um := upMatchedOf inp
  let dm := downMatchedOf inp
  let filledUp := decide (dm < um)
  let missing := |um - dm|
  let otherToken := if filledUp then cfg.downToken else cfg.upToken
  let otherTick := if filledUp then cfg.downTick else cfg.upTick
  match cfg.policy with
  | SingleFillAction.wait => [Ev.mitWait]
  | SingleFillAction.cancel =>
      [Ev.mitCancel (if filledUp then downId else upId) inp.cancelOk]
  | SingleFillAction.hedge =>
      let maxOtherPrice := 1 - cfg.price - cfg.minHedgeEdge
      match (parseOrderBookTop inp.otherBook).bestAsk with
      | none => [Ev.hedgeSkipNoAsk]
      | some ask =>
          if decide (maxOtherPrice < ask) then [Ev.hedgeSkipEdge]
          else
            [Ev.hedgeSubmit otherToken (roundDownToTick maxOtherPrice otherTick)
              missing false inp.hedgeResp]

/-- The loop-local mutable state of one window: the grace-timer origin
firstSingleFillAtMs and the actedOnSingleFill latch. -/
structure LoopState where
  firstSingleFillAt : Option ℤ
  acted : Bool
deriving DecidableEq

/-- Both legs just placed: no single fill seen, latch clear. -/
def initState : LoopState := ⟨none, false⟩

/-- One iteration body of the monitoring loop (the loop condition
Date.now() < cancelAtMs is checked by runLoop).  Returns the new state,
the events of this iteration, and whether the loop breaks (bothFull). -/
def windowStep (cfg : Config) (upId downId : String) (st : LoopState)
    (inp : StepInput) : LoopState × List Ev × Bool :=
  if inp.rtdsSkip then (st, [], false)
  else if bothFullOf cfg inp then (st, [], true)
  else if oneSomeOf inp && !st.acted then
    if decide (cfg.graceSec ≤
        ((inp.time - st.firstSingleFillAt.getD inp.time : ℤ) : ℚ) / 1000) then
      (⟨some (st.firstSingleFillAt.getD inp.time), true⟩,
        mitigationEvents cfg inp upId downId, false)
    else (⟨some (st.firstSingleFillAt.getD inp.time), st.acted⟩, [], false)
  else (st, [], false)

/-- The monitoring loop: while Date.now() < cancelAtMs, run the
iteration body; stop early on the bothFull break. -/
def runLoop (cfg : Config) (upId downId : String) (cancelAt : ℤ) :
    LoopState → List StepInput → LoopState × List Ev
  | st, [] => (st, [])
  | st, inp :: rest =>
    if inp.time < cancelAt then
      let r := windowStep cfg upId downId st inp
      if r.2.2 then (r.1, r.2.1)
      else
        let r2 := runLoop cfg upId downId cancelAt r.1 rest
        (r2.1, r.2.1 ++ r2.2)
    else (st, [])

/-- A window after both legs are placed: the monitoring loop followed by
the closing sweep, which best-effort cancels each id in orderIds (the
two original legs, pushed at placement) in order, regardless of
failures.  The hedge order id is never pushed into orderIds in the
source, so the sweep covers exactly the two leg ids. -/
def runWindowAfterPlacement (cfg : Config) (upId downId : String) (cancelAt : ℤ)
    (steps : List StepInput) (sweepOk : String → Bool) : List Ev :=
  (runLoop cfg upId downId cancelAt initState steps).2 ++
    [Ev.sweepCancel upId (sweepOk upId), Ev.sweepCancel downId (sweepOk downId)]

/-- Is an event one of the mitigation actions (wait acknowledgment,
cancel of the unfilled leg, or any outcome of the hedge branch)? -/
def isMitEv : Ev → Bool
  | Ev.mitWait => true
  | Ev.mitCancel _ _ => true
  | Ev.hedgeSkipNoAsk => true
  | Ev.hedgeSkipEdge => true
  | Ev.hedgeSubmit _ _ _ _ _ => true
  | Ev.sweepCancel _ _ => false

/-- Is an event a hedge order submission? -/
def isHedgeSubmitEv : Ev → Bool
  | Ev.hedgeSubmit _ _ _ _ _ => true
  | _ => false

/-- The order id assigned by a successful hedge submission, if any. -/
def hedgeIdOf : Ev → Option String
  | Ev.hedgeSubmit _ _ _ _ (some i) => some i
  | _ => none

/-- The order id targeted by a closing-sweep cancel, if any. -/
def sweepIdOf : Ev → Option String
  | Ev.sweepCancel i _ => some i
  | _ => none

/-- Ids of successfully submitted hedge orders in a trace. -/
def submittedHedgeIds (evs : List Ev) : List String :=
  evs.filterMap hedgeIdOf

/-- Every order id submitted during the window: the two legs placed at
the start plus any hedge order id. -/
def submittedIds (upId downId : String) (evs : List Ev) : List String :=
  upId :: downId :: submittedHedgeIds evs

/-- Order ids that received a closing-sweep cancel attempt. -/
def sweptIds (evs : List Ev) : List String :=
  evs.filterMap sweepIdOf

/-- Fatal pre-trade errors of the model (the subset of the validation
chain that the claims exercise, in source order). -/
inductive FatalError
  | invalidPrice
  | insufficientEdge
  | unsafeQuote
deriving DecidableEq

/-- The pre-trade validations up to and including the pair edge circuit
breaker: price must lie strictly inside (0, 1), then the pair edge
1 - 2*price must reach minEdge, else InsufficientEdge. -/
def mainPreTrade (price minEdge : ℚ) : Option FatalError :=
  if decide (price ≤ 0) || decide (1 ≤ price) then some FatalError.invalidPrice
  else if decide (pairEdge price < minEdge) then some FatalError.insufficientEdge
  else none

/-- The whole pipeline of one run: pre-trade validations, then the
quote sanity check, then placement, monitoring and the closing sweep.
An error means the process aborts before any order is placed. -/
def mainModel (cfg : Config) (upBook downBook : Book) (upId downId : String)
    (cancelAt : ℤ) (steps : List StepInput) (sweepOk : String → Bool) :
    Except FatalError (List Ev) :=
  match mainPreTrade cfg.price cfg.minEdge with
  | some e => Except.error e
  | none =>
    if quoteSanityFails cfg.allowWeirdQuotes (parseOrderBookTop upBook)
        (parseOrderBookTop downBook) then
      Except.error FatalError.unsafeQuote
    else
      Except.ok (runWindowAfterPlacement cfg upId downId cancelAt steps sweepOk)

/-- Fixed 15-minute repeat period in milliseconds. -/
def periodMs : ℤ := 15 * 60 * 1000

/-- Repeat-mode schedule: the start of the i-th executed window (zero
indexed).  The loop advances the boundary by one period from the prior
boundary before each run, never from the wall clock. -/
def windowStartSeq (anchor : ℤ) : ℕ → ℤ
  | 0 => anchor + periodMs
  | n + 1 => windowStartSeq anchor n + periodMs

/-! ### Helper lemmas -/

/-- Closed form of the repeat-mode schedule. -/
lemma windowStartSeq_closed (anchor : ℤ) (i : ℕ) :
    windowStartSeq anchor i = anchor + ((i : ℤ) + 1) * periodMs := by
  induction i with
  | zero => simp [windowStartSeq]
  | succ n ih =>
      rw [windowStartSeq, ih]
      push_cast
      ring

/-! ### Claims about pricing, scheduling and the pre-trade checks -/

/-- Claim C6, counterexample: the epsilon snap inside roundDownToTick
rounds a price lying within 1e-9 (in tick units) below a tick boundary
up to that boundary, so the result can exceed the input price:
roundDownToTick 0.49999999999 0.01 = 0.5 > 0.49999999999. -/
theorem c6_counterexample :
    ¬ roundDownToTick (49999999999 / 100000000000) (1 / 100) ≤
        49999999999 / 100000000000 := by
  have h : roundDownToTick (49999999999 / 100000000000) (1 / 100) = 1 / 2 := by
    norm_num [roundDownToTick, round8, eps]
  rw [h]
  norm_num

/-- Claim C6, amended: when the tick is not positive the input is
returned unchanged; when the tick is positive, has at most eight
decimal places, and the price is not within 1e-9 of the next tick
boundary in tick units (so the epsilon snap does not fire), the result
is exactly the floored multiple of the tick, hence at most the input
price and an integer multiple of the tick. -/
theorem c6_amended (x t : ℚ) :
    (t ≤ 0 → roundDownToTick x t = x) ∧
    (0 < t → ∀ k : ℤ, t * 100000000 = (k : ℚ) →
      x / t + eps < (⌊x / t⌋ : ℚ) + 1 →
      roundDownToTick x t = (⌊x / t⌋ : ℚ) * t ∧
        roundDownToTick x t ≤ x ∧ ∃ n : ℤ, roundDownToTick x t = (n : ℚ) * t) := by
  constructor
  · intro ht
    simp [roundDownToTick, ht]
  · intro ht k hk hsnap
    have ht' : ¬ t ≤ 0 := not_le.mpr ht
    have hepsnn : (0 : ℚ) ≤ eps := by norm_num [eps]
    have hfl : ⌊x / t + eps⌋ = ⌊x / t⌋ := by
      refine Int.floor_eq_iff.mpr ⟨?_, hsnap⟩
      exact le_trans (Int.floor_le _) (le_add_of_nonneg_right hepsnn)
    have hval : roundDownToTick x t = round8 ((⌊x / t⌋ : ℚ) * t) := by
      rw [roundDownToTick, if_neg ht', hfl]
    have hcast : (⌊x / t⌋ : ℚ) * t * 100000000 = ((⌊x / t⌋ * k : ℤ) : ℚ) := by
      push_cast
      rw [mul_assoc, hk]
    have hr8 : round8 ((⌊x / t⌋ : ℚ) * t) = (⌊x / t⌋ : ℚ) * t := by
      rw [round8, hcast]
      rw [Int.floor_int_add]
      have : ⌊(1 : ℚ) / 2⌋ = 0 := by norm_num
      rw [this, add_zero]
      push_cast
      rw [← hk]
      field_simp
      ring
    have hres : roundDownToTick x t = (⌊x / t⌋ : ℚ) * t := hval.trans hr8
    refine ⟨hres, ?_, ⟨⌊x / t⌋, hres⟩⟩
    rw [hres]
    have h1 : (⌊x / t⌋ : ℚ) ≤ x / t := Int.floor_le _
    calc (⌊x / t⌋ : ℚ) * t ≤ (x / t) * t :=
          mul_le_mul_of_nonneg_right h1 (le_of_lt ht)
      _ = x := div_mul_cancel₀ x (ne_of_gt ht)

/-- Claim C6, witness: at price 0.49 and tick 0.01 the amended theorem
applies and the quantized price 0.49 is at most the input. -/
theorem c6_witness :
    roundDownToTick (49 / 100) (1 / 100) = (⌊(49 : ℚ) / 100 / (1 / 100)⌋ : ℚ) * (1 / 100) ∧
      roundDownToTick (49 / 100) (1 / 100) ≤ 49 / 100 := by
  have h := ((c6_amended (49 / 100) (1 / 100)).2 (by norm_num) 1000000 (by norm_num)
    (by norm_num [eps]))
  exact ⟨h.1, h.2.1⟩

/-- Claim C7: within the validated price range, the pre-trade pipeline
fails with InsufficientEdge exactly when the pair edge 1 - 2*price is
below minEdge; any pre-trade failure aborts the run before any order
is placed; price 0.49 with minEdge 0.005 passes while price 0.499
fails with InsufficientEdge. -/
theorem c7_edge_check :
    (∀ p m : ℚ, 0 < p → p < 1 →
      (mainPreTrade p m = some FatalError.insufficientEdge ↔ pairEdge p < m)) ∧
    (∀ (cfg : Config) (upBook downBook : Book) (upId downId : String)
      (cancelAt : ℤ) (steps : List StepInput) (sweepOk : String → Bool)
      (e : FatalError), mainPreTrade cfg.price cfg.minEdge = some e →
      mainModel cfg upBook downBook upId downId cancelAt steps sweepOk =
        Except.error e) ∧
    mainPreTrade (49 / 100) (5 / 1000) = none ∧
    mainPreTrade (499 / 1000) (5 / 1000) = some FatalError.insufficientEdge := by
  refine ⟨?_, ?_, ?_, ?_⟩
  · intro p m hp hp1
    have h0 : ¬ p ≤ 0 := not_le.mpr hp
    have h1 : ¬ (1 : ℚ) ≤ p := not_le.mpr hp1
    by_cases he : pairEdge p < m <;> simp [mainPreTrade, h0, h1, he]
  · intro cfg upBook downBook upId downId cancelAt steps sweepOk e he
    simp [mainModel, he]
  · norm_num [mainPreTrade, pairEdge]
  · norm_num [mainPreTrade, pairEdge]

/-- Claim C7, witness: the iff of the edge check instantiated at
price 0.49, minEdge 0.005. -/
theorem c7_witness :
    mainPreTrade (49 / 100) (5 / 1000) = some FatalError.insufficientEdge ↔
      pairEdge (49 / 100) < 5 / 1000 :=
  c7_edge_check.1 (49 / 100) (5 / 1000) (by norm_num) (by norm_num)

/-- Claim C8: in repeat mode each window start is the previous start
plus the fixed 15-minute period, computed from the prior boundary and
never from the wall clock (the schedule takes no clock input), so the
i-th executed window starts exactly (i+1) periods after the anchor. -/
theorem c8_no_drift :
    ∀ (anchor : ℤ) (i : ℕ),
      windowStartSeq anchor (i + 1) = windowStartSeq anchor i + periodMs ∧
      windowStartSeq anchor i = anchor + ((i : ℤ) + 1) * periodMs := by
  intro anchor i
  exact ⟨rfl, windowStartSeq_closed anchor i⟩

/-- Claim C10: the repeat loop advances the boundary one full period
before running each window, so the first executed window starts exactly
one period after the resolved anchor and no window ever starts at the
anchor itself. -/
theorem c10_first_window_shifted :
    ∀ (anchor : ℤ) (i : ℕ),
      windowStartSeq anchor 0 = anchor + periodMs ∧
      windowStartSeq anchor i ≠ anchor := by
  intro anchor i
  refine ⟨rfl, ?_⟩
  rw [windowStartSeq_closed]
  intro h
  have hpos : (0 : ℤ) < ((i : ℤ) + 1) * periodMs := by
    have : (0 : ℤ) < (i : ℤ) + 1 := by positivity
    have hp : (0 : ℤ) < periodMs := by norm_num [periodMs]
    positivity
  omega

/-- Claim C9: the quote sanity check flags exactly the quotes that are
present and at or outside the open interval (0, 1); a null (empty book
side) is never flagged, an entirely empty book parses to four nulls,
and with such books the pipeline proceeds past the sanity check to
placement even with the allow-weird-quotes override off. -/
theorem c9_null_quotes_pass :
    (∀ x : Option ℚ, isWeird x = true ↔ ∃ v, x = some v ∧ (v ≤ 0 ∨ 1 ≤ v)) ∧
    parseOrderBookTop ⟨[], []⟩ = ⟨none, none, none, none⟩ ∧
    (∀ (cfg : Config) (upId downId : String) (cancelAt : ℤ)
      (steps : List StepInput) (sweepOk : String → Bool),
      cfg.allowWeirdQuotes = false →
      mainPreTrade cfg.price cfg.minEdge = none →
      mainModel cfg ⟨[], []⟩ ⟨[], []⟩ upId downId cancelAt steps sweepOk =
        Except.ok (runWindowAfterPlacement cfg upId downId cancelAt steps sweepOk)) := by
  refine ⟨?_, rfl, ?_⟩
  · intro x
    cases x with
    | none => simp [isWeird]
    | some v => simp [isWeird]
  · intro cfg upId downId cancelAt steps sweepOk hw hpre
    simp [mainModel, hpre, quoteSanityFails, parseOrderBookTop, isWeird]

/-- Claim C9, witness: with the standard configuration (override off)
and entirely empty books on both legs, the run proceeds to placement. -/
theorem c9_witness :
    mainModel ⟨49 / 100, 5 / 1000, 2 / 1000, 10, 10, SingleFillAction.hedge,
        "TU", "TD", 1 / 100, 1 / 100, false⟩ ⟨[], []⟩ ⟨[], []⟩ "U1" "D1" 0 []
        (fun _ => true) =
      Except.ok (runWindowAfterPlacement
        ⟨49 / 100, 5 / 1000, 2 / 1000, 10, 10, SingleFillAction.hedge,
          "TU", "TD", 1 / 100, 1 / 100, false⟩ "U1" "D1" 0 [] (fun _ => true)) :=
  c9_null_quotes_pass.2.2 _ "U1" "D1" 0 [] (fun _ => true) rfl
    (by norm_num [mainPreTrade, pairEdge])

/-! ### Helper lemmas about the monitoring loop -/

/-- Each execution of the mitigation block emits exactly one event,
that event is a mitigation event, and it is never a sweep cancel. -/
lemma mitigationEvents_spec (cfg : Config) (inp : StepInput) (u d : String) :
    (mitigationEvents cfg inp u d).countP isMitEv = 1 ∧
    sweptIds (mitigationEvents cfg inp u d) = [] := by
  unfold mitigationEvents
  cases cfg.policy with
  | wait => simp [sweptIds, sweepIdOf, isMitEv]
  | cancel => simp [sweptIds, sweepIdOf, isMitEv]
  | hedge =>
      cases h : (parseOrderBookTop inp.otherBook).bestAsk with
      | none => simp [h, sweptIds, sweepIdOf, isMitEv]
      | some a =>
          by_cases hc : 1 - cfg.price - cfg.minHedgeEdge < a <;>
            simp [h, hc, sweptIds, sweepIdOf, isMitEv]

/-- One loop iteration either leaves the latch unchanged and emits no
event, or fires the mitigation block from a clear latch, setting the
latch and emitting the block's events. -/
lemma windowStep_spec (cfg : Config) (u d : String) (st : LoopState) (inp : StepInput) :
    ((windowStep cfg u d st inp).2.1 = [] ∧
      (windowStep cfg u d st inp).1.acted = st.acted) ∨
    (st.acted = false ∧ (windowStep cfg u d st inp).1.acted = true ∧
      (windowStep cfg u d st inp).2.1 = mitigationEvents cfg inp u d) := by
  unfold windowStep
  split_ifs with h1 h2 h3 h4
  · exact Or.inl ⟨rfl, rfl⟩
  · exact Or.inl ⟨rfl, rfl⟩
  · refine Or.inr ⟨?_, rfl, rfl⟩
    simp only [Bool.and_eq_true, Bool.not_eq_true'] at h3
    exact h3.2
  · exact Or.inl ⟨rfl, rfl⟩
  · exact Or.inl ⟨rfl, rfl⟩

/-- Once the latch is set, the rest of the loop emits no events. -/
lemma runLoop_events_of_acted (cfg : Config) (u d : String) (c : ℤ) :
    ∀ (steps : List StepInput) (st : LoopState), st.acted = true →
      (runLoop cfg u d c st steps).2 = [] := by
  intro steps
  induction steps with
  | nil => intro st _; rfl
  | cons inp rest ih =>
      intro st h
      by_cases htime : inp.time < c
      · rcases windowStep_spec cfg u d st inp with ⟨he, ha⟩ | ⟨hf, _, _⟩
        · by_cases hbrk : (windowStep cfg u d st inp).2.2
          · simp [runLoop, htime, hbrk, he]
          · simp [runLoop, htime, hbrk, he, ih _ (ha.trans h)]
        · rw [h] at hf
          exact absurd hf (by simp)
      · simp [runLoop, htime]

/-- From a clear latch, the loop emits at most one mitigation event. -/
lemma runLoop_mitCount (cfg : Config) (u d : String) (c : ℤ) :
    ∀ (steps : List StepInput) (st : LoopState), st.acted = false →
      ((runLoop cfg u d c st steps).2).countP isMitEv ≤ 1 := by
  intro steps
  induction steps with
  | nil => intro st _; simp [runLoop]
  | cons inp rest ih =>
      intro st h
      by_cases htime : inp.time < c
      · rcases windowStep_spec cfg u d st inp with ⟨he, ha⟩ | ⟨-, ha, hev⟩
        · by_cases hbrk : (windowStep cfg u d st inp).2.2
          · simp [runLoop, htime, hbrk, he]
          · have hrec := ih ((windowStep cfg u d st inp).1) (ha.trans h)
            simpa [runLoop, htime, hbrk, he, List.countP_append] using hrec
        · by_cases hbrk : (windowStep cfg u d st inp).2.2
          · simp [runLoop, htime, hbrk, hev, (mitigationEvents_spec cfg inp u d).1]
          · have hrest := runLoop_events_of_acted cfg u d c rest _ ha
            simp [runLoop, htime, hbrk, hev, hrest, List.countP_append,
              (mitigationEvents_spec cfg inp u d).1]
      · simp [runLoop, htime]

/-- The monitoring loop never emits a sweep-cancel event. -/
lemma runLoop_sweptIds (cfg : Config) (u d : String) (c : ℤ) :
    ∀ (steps : List StepInput) (st : LoopState),
      sweptIds (runLoop cfg u d c st steps).2 = [] := by
  intro steps
  induction steps with
  | nil => intro st; rfl
  | cons inp rest ih =>
      intro st
      by_cases htime : inp.time < c
      · rcases windowStep_spec cfg u d st inp with ⟨he, -⟩ | ⟨-, -, hev⟩
        · by_cases hbrk : (windowStep cfg u d st inp).2.2
          · simp [runLoop, htime, hbrk, he, sweptIds]
          · have hrec := ih ((windowStep cfg u d st inp).1)
            simp only [sweptIds] at hrec
            simp [runLoop, htime, hbrk, he, sweptIds, List.filterMap_append, hrec]
        · by_cases hbrk : (windowStep cfg u d st inp).2.2
          · have := (mitigationEvents_spec cfg inp u d).2
            simp only [sweptIds] at this
            simp [runLoop, htime, hbrk, hev, sweptIds, this]
          · have hrec := ih ((windowStep cfg u d st inp).1)
            have hmev := (mitigationEvents_spec cfg inp u d).2
            simp only [sweptIds] at hrec hmev
            simp [runLoop, htime, hbrk, hev, sweptIds, List.filterMap_append,
              hrec, hmev]
      · simp [runLoop, htime, sweptIds]

/-! ### Concrete window scenarios -/

/-- A standard hedge-policy configuration: price 0.49, minEdge 0.005,
minHedgeEdge 0.002, grace 10 s, size 10 shares, ticks 0.01. -/
def cfgC1 : Config :=
  ⟨49 / 100, 5 / 1000, 2 / 1000, 10, 10, SingleFillAction.hedge,
    "TU", "TD", 1 / 100, 1 / 100, false⟩

/-- A leg read showing a fully matched order of 10 shares. -/
def readFilledUp : Option OrderView := some ⟨some 10, some 10⟩

/-- A leg read showing zero matched shares of 10. -/
def readEmptyDown : Option OrderView := some ⟨some 0, some 10⟩

/-- Iteration at t=0: UP fully filled, DOWN empty; grace timer starts. -/
def stepC1a : StepInput := ⟨0, false, readFilledUp, readEmptyDown, ⟨[], []⟩, none, true⟩

/-- Iteration at t=20s: grace elapsed, DOWN best ask 0.50, hedge
submission succeeds with order id H1. -/
def stepC1b : StepInput :=
  ⟨20000, false, readFilledUp, readEmptyDown,
    ⟨[], [⟨some (1 / 2), some 100⟩]⟩, some "H1", true⟩

/-- The two-iteration environment producing a hedge order. -/
def stepsC1 : List StepInput := [stepC1a, stepC1b]

/-- An iteration in which both legs read fully filled. -/
def stepFullBoth : StepInput := ⟨0, false, readFilledUp, readFilledUp, ⟨[], []⟩, none, true⟩

/-- A successful read of a partially matched UP leg (5 of 10) with an
empty DOWN leg. -/
def stepC5ok : StepInput :=
  ⟨0, false, some ⟨some 5, some 10⟩, some ⟨some 0, some 10⟩, ⟨[], []⟩, none, true⟩

/-- The same iteration with the UP read failing (safeGetOrder null). -/
def stepC5fail : StepInput :=
  ⟨0, false, none, some ⟨some 0, some 10⟩, ⟨[], []⟩, none, true⟩

/-- An iteration in which both reads fail. -/
def stepC5none : StepInput := ⟨0, false, none, none, ⟨[], []⟩, none, true⟩

/-- The concrete trace of the hedge scenario: one hedge submission,
then the closing sweep over the two original legs only. -/
lemma runC1_eval :
    runWindowAfterPlacement cfgC1 "U1" "D1" 1000000 stepsC1 (fun _ => true) =
      [Ev.hedgeSubmit "TD" (1 / 2) 10 false (some "H1"),
        Ev.sweepCancel "U1" true, Ev.sweepCancel "D1" true] := by
  have htick : roundDownToTick (127 / 250) (1 / 100) = 1 / 2 := by
    norm_num [roundDownToTick, round8, eps]
  have habs : |upMatchedOf stepC1b - downMatchedOf stepC1b| = 10 := by
    norm_num [upMatchedOf, downMatchedOf, parseMatchedShares, stepC1b,
      readFilledUp, readEmptyDown]
  norm_num [runWindowAfterPlacement, runLoop, stepsC1, initState, windowStep,
    bothFullOf, upFullOf, downFullOf, oneSomeOf, upSomeOf, downSomeOf,
    upMatchedOf, downMatchedOf, upOrigOf, downOrigOf, parseMatchedShares,
    parseOriginalShares, stepC1a, stepC1b, readFilledUp, readEmptyDown,
    cfgC1, eps, mitigationEvents, parseOrderBookTop, htick, habs]

/-! ### Claims about the monitoring loop and the closing sweep -/

/-- Claim C1, counterexample: in a window whose hedge submission
succeeded with order id H1, the closing sweep cancels only the two
original leg ids; the hedge order id H1 was submitted during the window
but receives no cancel attempt. -/
theorem c1_counterexample :
    "H1" ∈ submittedIds "U1" "D1"
        (runWindowAfterPlacement cfgC1 "U1" "D1" 1000000 stepsC1 (fun _ => true)) ∧
    "H1" ∉ sweptIds
        (runWindowAfterPlacement cfgC1 "U1" "D1" 1000000 stepsC1 (fun _ => true)) := by
  rw [runC1_eval]
  constructor
  · simp [submittedIds, submittedHedgeIds, hedgeIdOf]
  · simp [sweptIds, sweepIdOf]

/-- Claim C1, amended: the closing sweep issues exactly one best-effort
cancel attempt for each of the two original leg ids, in order, and
every id is attempted regardless of cancel outcomes and of the window's
history; the hedge order id is not part of the sweep. -/
theorem c1_amended :
    ∀ (cfg : Config) (upId downId : String) (cancelAt : ℤ)
      (steps : List StepInput) (sweepOk : String → Bool),
      sweptIds (runWindowAfterPlacement cfg upId downId cancelAt steps sweepOk) =
        [upId, downId] := by
  intro cfg u d c steps sweepOk
  have hloop := runLoop_sweptIds cfg u d c steps initState
  simp only [sweptIds] at hloop
  simp [runWindowAfterPlacement, sweptIds, List.filterMap_append, hloop, sweepIdOf]

/-- Claim C2: over any window and any environment, at most one
mitigation event (wait acknowledgment, cancel of the unfilled leg, or
any hedge-branch outcome) is emitted, and in particular at most one
hedge order is ever submitted. -/
theorem c2_single_mitigation :
    ∀ (cfg : Config) (upId downId : String) (cancelAt : ℤ)
      (steps : List StepInput) (sweepOk : String → Bool),
      (runWindowAfterPlacement cfg upId downId cancelAt steps sweepOk).countP
          isMitEv ≤ 1 ∧
      (runWindowAfterPlacement cfg upId downId cancelAt steps sweepOk).countP
          isHedgeSubmitEv ≤ 1 := by
  intro cfg u d c steps sweepOk
  have hmit : (runWindowAfterPlacement cfg u d c steps sweepOk).countP isMitEv ≤ 1 := by
    have h1 := runLoop_mitCount cfg u d c steps initState rfl
    have h2 : ([Ev.sweepCancel u (sweepOk u),
        Ev.sweepCancel d (sweepOk d)]).countP isMitEv = 0 := by
      simp [isMitEv]
    rw [runWindowAfterPlacement, List.countP_append, h2]
    omega
  refine ⟨hmit, le_trans ?_ hmit⟩
  apply List.countP_mono_left
  intro e _ he
  cases e <;> simp_all [isHedgeSubmitEv, isMitEv]

/-- Claim C3: when an iteration observes both legs fully filled (each
matched count at least the original within epsilon), the loop stops at
once: the iteration emits no event, the state is unchanged, and no
later iteration runs, so no mitigation occurs from that point on. -/
theorem c3_bothfull_stops (cfg : Config) (upId downId : String) (cancelAt : ℤ)
    (st : LoopState) (inp : StepInput) (rest : List StepInput)
    (hskip : inp.rtdsSkip = false) (htime : inp.time < cancelAt)
    (hfull : bothFullOf cfg inp = true) :
    runLoop cfg upId downId cancelAt st (inp :: rest) = (st, []) := by
  rw [runLoop, if_pos htime]
  simp [windowStep, hskip, hfull]

/-- Claim C3, witness: a both-legs-full observation at t=0 stops the
loop immediately with no events. -/
theorem c3_witness :
    runLoop cfgC1 "U1" "D1" 1000000 initState [stepFullBoth] = (initState, []) :=
  c3_bothfull_stops cfgC1 "U1" "D1" 1000000 initState stepFullBoth [] rfl
    (by norm_num [stepFullBoth])
    (by norm_num [bothFullOf, upFullOf, downFullOf, upMatchedOf, downMatchedOf,
      upOrigOf, downOrigOf, parseMatchedShares, parseOriginalShares,
      stepFullBoth, readFilledUp, cfgC1, eps])

/-- Claim C4: under the hedge policy, when the grace period has elapsed
from a clear latch the iteration latches and, depending on the opposite
leg's best ask: unavailable → skip; above 1 - price - minHedgeEdge →
skip; otherwise → exactly one non-post-only buy of the matched-share
difference at the tick-quantized maximum price. -/
theorem c4_hedge_policy (cfg : Config) (upId downId : String) (st : LoopState)
    (inp : StepInput)
    (hpol : cfg.policy = SingleFillAction.hedge)
    (hskip : inp.rtdsSkip = false)
    (hacted : st.acted = false)
    (hboth : bothFullOf cfg inp = false)
    (hone : oneSomeOf inp = true)
    (hgrace : cfg.graceSec ≤
      ((inp.time - st.firstSingleFillAt.getD inp.time : ℤ) : ℚ) / 1000) :
    (windowStep cfg upId downId st inp).1.acted = true ∧
    ((parseOrderBookTop inp.otherBook).bestAsk = none →
      (windowStep cfg upId downId st inp).2.1 = [Ev.hedgeSkipNoAsk]) ∧
    (∀ a, (parseOrderBookTop inp.otherBook).bestAsk = some a →
      1 - cfg.price - cfg.minHedgeEdge < a →
      (windowStep cfg upId downId st inp).2.1 = [Ev.hedgeSkipEdge]) ∧
    (∀ a, (parseOrderBookTop inp.otherBook).bestAsk = some a →
      a ≤ 1 - cfg.price - cfg.minHedgeEdge →
      (windowStep cfg upId downId st inp).2.1 =
        [Ev.hedgeSubmit
          (if downMatchedOf inp < upMatchedOf inp then cfg.downToken else cfg.upToken)
          (roundDownToTick (1 - cfg.price - cfg.minHedgeEdge)
            (if downMatchedOf inp < upMatchedOf inp then cfg.downTick else cfg.upTick))
          |upMatchedOf inp - downMatchedOf inp| false inp.hedgeResp]) := by
  have hgrace' : cfg.graceSec ≤
      ((inp.time : ℚ) - ((st.firstSingleFillAt.getD inp.time : ℤ) : ℚ)) / 1000 := by
    push_cast at hgrace
    exact hgrace
  have hstep : (windowStep cfg upId downId st inp).1.acted = true ∧
      (windowStep cfg upId downId st inp).2.1 = mitigationEvents cfg inp upId downId := by
    constructor <;> simp [windowStep, hskip, hboth, hone, hacted, hgrace']
  refine ⟨hstep.1, ?_, ?_, ?_⟩
  · intro h
    rw [hstep.2]
    simp [mitigationEvents, hpol, h]
  · intro a ha hlt
    rw [hstep.2]
    simp [mitigationEvents, hpol, ha, hlt]
  · intro a ha hle
    rw [hstep.2]
    simp [mitigationEvents, hpol, ha, not_lt.mpr hle]

/-- Claim C4, witness: in the concrete hedge scenario the iteration
submits one non-post-only hedge order on the DOWN token for the
10-share difference at the quantized maximum price. -/
theorem c4_witness :
    (windowStep cfgC1 "U1" "D1" ⟨some 0, false⟩ stepC1b).2.1 =
      [Ev.hedgeSubmit "TD"
        (roundDownToTick (1 - cfgC1.price - cfgC1.minHedgeEdge) cfgC1.downTick)
        10 false (some "H1")] := by
  have h := (c4_hedge_policy cfgC1 "U1" "D1" ⟨some 0, false⟩ stepC1b rfl rfl rfl
    (by norm_num [bothFullOf, upFullOf, downFullOf, upMatchedOf, downMatchedOf,
      upOrigOf, downOrigOf, parseMatchedShares, parseOriginalShares,
      stepC1b, readFilledUp, readEmptyDown, cfgC1, eps])
    (by norm_num [oneSomeOf, upSomeOf, downSomeOf, upMatchedOf, downMatchedOf,
      parseMatchedShares, stepC1b, readFilledUp, readEmptyDown, eps])
    (by norm_num [cfgC1, stepC1b])).2.2.2 (1 / 2) rfl (by norm_num [cfgC1])
  rw [h]
  have habs : |upMatchedOf stepC1b - downMatchedOf stepC1b| = 10 := by
    norm_num [upMatchedOf, downMatchedOf, parseMatchedShares, stepC1b,
      readFilledUp, readEmptyDown]
  have hlt : downMatchedOf stepC1b < upMatchedOf stepC1b := by
    norm_num [upMatchedOf, downMatchedOf, parseMatchedShares, stepC1b,
      readFilledUp, readEmptyDown]
  simp only [if_pos hlt, habs]
  rfl

/-- Claim C5, counterexample: a failed fill-status read is not treated
as "no new information": with the UP leg partially matched and the DOWN
leg empty, a successful read classifies the cycle as oneSome, while the
same cycle with the UP read failing classifies it as not oneSome —
the failure changed the classification that drives mitigation. -/
theorem c5_counterexample :
    stepC5fail = { stepC5ok with upRead := none } ∧
    oneSomeOf stepC5ok = true ∧ oneSomeOf stepC5fail = false := by
  refine ⟨rfl, ?_, ?_⟩ <;>
    norm_num [oneSomeOf, upSomeOf, downSomeOf, upMatchedOf, downMatchedOf,
      parseMatchedShares, stepC5ok, stepC5fail, eps]

/-- Claim C5, amended: a failed read is treated as zero matched shares
with the original size falling back to the configured size (not as "no
new information", so it can change the cycle's classification); it is
not fatal: when both reads fail the iteration is a no-op and the loop
simply retries on the next cycle. -/
theorem c5_amended (cfg : Config) (upId downId : String) (cancelAt : ℤ)
    (st : LoopState) (inp : StepInput) (rest : List StepInput)
    (hup : inp.upRead = none) (hdown : inp.downRead = none)
    (hskip : inp.rtdsSkip = false) (htime : inp.time < cancelAt)
    (hsize : eps < cfg.size) :
    upMatchedOf inp = 0 ∧ upOrigOf cfg inp = cfg.size ∧
    runLoop cfg upId downId cancelAt st (inp :: rest) =
      runLoop cfg upId downId cancelAt st rest := by
  have hum : upMatchedOf inp = 0 := by simp [upMatchedOf, parseMatchedShares, hup]
  have hdm : downMatchedOf inp = 0 := by simp [downMatchedOf, parseMatchedShares, hdown]
  have horig : upOrigOf cfg inp = cfg.size := by
    simp [upOrigOf, parseOriginalShares, hup]
  refine ⟨hum, horig, ?_⟩
  have hnotfull : ¬ (cfg.size ≤ eps) := not_le.mpr hsize
  have hboth : bothFullOf cfg inp = false := by
    simp [bothFullOf, upFullOf, hum, horig, hnotfull]
  have hone : oneSomeOf inp = false := by
    norm_num [oneSomeOf, upSomeOf, downSomeOf, hum, hdm, eps]
  rw [runLoop, if_pos htime]
  simp [windowStep, hskip, hboth, hone]

/-- Claim C5, witness: with both reads failing at t=0, the iteration is
a no-op and the loop state is exactly what it would be without it. -/
theorem c5_witness :
    upMatchedOf stepC5none = 0 ∧ upOrigOf cfgC1 stepC5none = cfgC1.size ∧
    runLoop cfgC1 "U1" "D1" 1000000 initState [stepC5none] =
      runLoop cfgC1 "U1" "D1" 1000000 initState [] :=
  c5_amended cfgC1 "U1" "D1" 1000000 initState stepC5none [] rfl rfl rfl
    (by norm_num [stepC5none]) (by norm_num [eps, cfgC1])

end PairOrder
